import Mathlib

/-!
Shallow embedding of the ichimoku-bot core pipeline
(`core/candle_buffer.py`, `core/indicator.py`, `core/signal_detector.py`,
`backtest/engine.py`) and proofs about the spec's claims.

Modelling conventions:
* timestamps and prices are rationals (`ℚ`); a pandas `NaN` /
  "undefined" indicator value is `Option ℚ`'s `none`;
* a DataFrame of candles is a `List Bar` in row order (index ascending
  after `_prepare`);
* Python `dict` state (the cooldown registry) is an association list with
  in-place replacement on assignment;
* fallible calls (`ValueError`, `RuntimeError`) return `Except String`.
-/

namespace IchimokuBot

/-- One OHLC candle row: the `time` index plus the four price columns. -/
structure Bar where
  time : ℚ
  opn : ℚ
  high : ℚ
  low : ℚ
  close : ℚ
deriving DecidableEq

/-- Comparison used by `_prepare`'s `sort_index()`: ascending time. -/
def timeLE (a b : Bar) : Prop := a.time ≤ b.time

/-- Strict version of `timeLE`; a window is sorted-and-deduplicated iff its
bars are pairwise `timeLT`. -/
def timeLT (a b : Bar) : Prop := a.time < b.time

instance : DecidableRel timeLE := fun a b => inferInstanceAs (Decidable (a.time ≤ b.time))

instance : DecidableRel timeLT := fun a b => inferInstanceAs (Decidable (a.time < b.time))

instance : IsTotal Bar timeLE := ⟨fun a b => le_total a.time b.time⟩

instance : IsTrans Bar timeLE := ⟨fun _ _ _ h h' => le_trans h h'⟩

instance : IsTrans Bar timeLT := ⟨fun _ _ _ h h' => lt_trans h h'⟩

/-- Boolean test that a bar list is weakly sorted by time (time-ordered
input, as the replay driver expects). -/
def timesSortedLE : List Bar → Bool
  | [] => true
  | [_] => true
  | a :: b :: rest => decide (a.time ≤ b.time) && timesSortedLE (b :: rest)

/-- Boolean test that a bar list is strictly increasing by time, i.e.
sorted ascending with no duplicate timestamps. -/
def timesStrictMono : List Bar → Bool
  | [] => true
  | [_] => true
  | a :: b :: rest => decide (a.time < b.time) && timesStrictMono (b :: rest)

/-- `CandleBuffer._prepare`: keep the OHLC columns and sort ascending by
the time index (no deduplication happens here). -/
def prepare (df : List Bar) : List Bar := List.insertionSort timeLE df

/-- `DataFrame.tail(n)`: the last `n` rows. -/
def tailN (n : ℕ) (l : List Bar) : List Bar := l.drop (l.length - n)

/-- `CandleBuffer.DEFAULT_MIN`: minimum candles for full Ichimoku. -/
def DEFAULT_MIN : ℕ := 78

/-- `CandleBuffer.seed`: the buffer contents after seeding — the prepared
input trimmed to the most recent `maxSize` rows. -/
def seedData (maxSize : ℕ) (df : List Bar) : List Bar :=
  tailN maxSize (prepare df)

/-- `new.index.isin(existing_idx)` for one row: does some buffered bar
already carry this timestamp? -/
def hasTime (l : List Bar) (t : ℚ) : Bool := l.any (fun b => decide (b.time = t))

/-- The rows of an `append` batch that survive the duplicate-timestamp
filter against the current buffer contents. -/
def newBarsOf (cur df : List Bar) : List Bar :=
  (prepare df).filter (fun b => !hasTime cur b.time)

/-- `CandleBuffer.append` on the buffer contents `cur` (already seeded):
prepare the batch, drop rows whose timestamp already exists in the buffer,
and if anything is left, concatenate and trim to the last `maxSize` rows.
Note the concatenation is *not* re-sorted. -/
def appendData (maxSize : ℕ) (cur df : List Bar) : List Bar :=
  let new := newBarsOf cur df
  if new.isEmpty then cur else tailN maxSize (cur ++ new)

/-- `CandleBuffer.__init__`: rejects `max_size < min_candles`. -/
def candleBufferInit (maxSize minCandles : ℕ) : Except String (ℕ × ℕ) :=
  if maxSize < minCandles then .error ("max_size must be >= min_candles")
  else .ok (maxSize, minCandles)

/-- `IchimokuConfig` dataclass with its defaults (9 / 26 / 52 / 26 / 26).
The dataclass performs no validation of its fields. -/
structure IchimokuConfig where
  tenkan_period : ℕ := 9
  kijun_period : ℕ := 26
  senkou_b_period : ℕ := 52
  displacement : ℕ := 26
  chikou_shift : ℕ := 26
deriving DecidableEq

/-- `IchimokuIndicator.__init__(config)`: stores `config or IchimokuConfig()`
unconditionally; there is no period validation, so it cannot fail. -/
def ichimokuIndicatorInit (config : Option IchimokuConfig) :
    Except String IchimokuConfig :=
  .ok (config.getD {})

/-- Binary maximum on ℚ, written as Python's `b if a < b else a` so that
concrete values reduce; equal to `max` (see `qmax_eq_max`). -/
def qmax (a b : ℚ) : ℚ := if a < b then b else a

/-- Binary minimum on ℚ, `b if b < a else a`; equal to `min`. -/
def qmin (a b : ℚ) : ℚ := if b < a then b else a

/-- Maximum of a nonempty rolling slice (`rolling(...).max()` value). -/
def foldMax : List ℚ → Option ℚ
  | [] => none
  | x :: xs => some (xs.foldl qmax x)

/-- Minimum of a nonempty rolling slice (`rolling(...).min()` value). -/
def foldMin : List ℚ → Option ℚ
  | [] => none
  | x :: xs => some (xs.foldl qmin x)

/-- The `p` rows ending at position `t` (inclusive), as used by
`rolling(window=p)` when at least `p` rows precede-or-include `t`. -/
def windowSlice (p t : ℕ) (bars : List Bar) : List Bar :=
  (bars.take (t + 1)).drop (t + 1 - p)

/-- `IchimokuIndicator._midpoint` at row `t`:
`(rolling(p).max(high) + rolling(p).min(low)) / 2`, `NaN` (here `none`)
while fewer than `p` rows are available.  (pandas rejects nonpositive
rolling windows at call time; `p = 0` is mapped to `none` and is never
relied upon below.) -/
def midpointAt (p : ℕ) (bars : List Bar) (t : ℕ) : Option ℚ :=
  if t < bars.length ∧ p ≤ t + 1 ∧ 1 ≤ p then
    match foldMax ((windowSlice p t bars).map Bar.high),
          foldMin ((windowSlice p t bars).map Bar.low) with
    | some h, some l => some ((h + l) / 2)
    | _, _ => none
  else none

/-- `tenkan` line at row `t`. -/
def tenkanAt (cfg : IchimokuConfig) (bars : List Bar) (t : ℕ) : Option ℚ :=
  midpointAt cfg.tenkan_period bars t

/-- `kijun` line at row `t`. -/
def kijunAt (cfg : IchimokuConfig) (bars : List Bar) (t : ℕ) : Option ℚ :=
  midpointAt cfg.kijun_period bars t

/-- `senkou_a` at row `t`: `((tenkan + kijun) / 2).shift(displacement)` —
the un-shifted value from `displacement` rows earlier, `NaN` when the
shift runs off the front or either input is `NaN`. -/
def senkouAAt (cfg : IchimokuConfig) (bars : List Bar) (t : ℕ) : Option ℚ :=
  if cfg.displacement ≤ t then
    match tenkanAt cfg bars (t - cfg.displacement),
          kijunAt cfg bars (t - cfg.displacement) with
    | some a, some b => some ((a + b) / 2)
    | _, _ => none
  else none

/-- `senkou_b` at row `t`: the `senkou_b_period` midpoint shifted forward
by `displacement`. -/
def senkouBAt (cfg : IchimokuConfig) (bars : List Bar) (t : ℕ) : Option ℚ :=
  if cfg.displacement ≤ t then
    midpointAt cfg.senkou_b_period bars (t - cfg.displacement)
  else none

/-- `chikou` at row `t`: `close.shift(-chikou_shift)`, i.e. the close
`chikou_shift` rows later, `NaN` when that runs off the end. -/
def chikouAt (cfg : IchimokuConfig) (bars : List Bar) (t : ℕ) : Option ℚ :=
  (bars[t + cfg.chikou_shift]?).map Bar.close

/-- The flat dict returned by `IchimokuIndicator.latest_values`. -/
structure LatestValues where
  tenkan : Option ℚ
  kijun : Option ℚ
  senkou_a : Option ℚ
  senkou_b : Option ℚ
  chikou : Option ℚ
  close : Option ℚ
  cloud_top : Option ℚ
  cloud_bottom : Option ℚ
  prev_tenkan : Option ℚ
  prev_kijun : Option ℚ
  prev_senkou_a : Option ℚ
  prev_senkou_b : Option ℚ
  prev_chikou : Option ℚ
  prev_close : Option ℚ
  prev_cloud_top : Option ℚ
  prev_cloud_bottom : Option ℚ
deriving DecidableEq

/-- `IchimokuIndicator._nan_dict()`: every key mapped to `NaN`. -/
def nanDict : LatestValues :=
  { tenkan := none, kijun := none, senkou_a := none, senkou_b := none
    chikou := none, close := none, cloud_top := none, cloud_bottom := none
    prev_tenkan := none, prev_kijun := none, prev_senkou_a := none
    prev_senkou_b := none, prev_chikou := none, prev_close := none
    prev_cloud_top := none, prev_cloud_bottom := none }

/-- Python's builtin `max(a, b)` (`b if b > a else a`) under IEEE
`NaN`-comparison semantics: any comparison with `NaN` is false, so
`max(NaN, x) = NaN` but `max(x, NaN) = x`. -/
def pyMax : Option ℚ → Option ℚ → Option ℚ
  | some x, some y => some (qmax x y)
  | none, _ => none
  | some x, none => some x

/-- Python's builtin `min(a, b)` (`b if b < a else a`) under `NaN`
semantics: `min(NaN, x) = NaN` but `min(x, NaN) = x`. -/
def pyMin : Option ℚ → Option ℚ → Option ℚ
  | some x, some y => some (qmin x y)
  | none, _ => none
  | some x, none => some x

/-- `IchimokuIndicator.latest_values(candles)`: the current (last-row) and
previous (second-to-last-row) line values, plus the Python `max`/`min`
derived cloud edges.  Returns the all-`NaN` dict when fewer than two rows
exist. -/
def latestValues (cfg : IchimokuConfig) (bars : List Bar) : LatestValues :=
  if bars.length < 2 then nanDict
  else
    let cur := bars.length - 1
    let prev := bars.length - 2
    { tenkan := tenkanAt cfg bars cur
      kijun := kijunAt cfg bars cur
      senkou_a := senkouAAt cfg bars cur
      senkou_b := senkouBAt cfg bars cur
      chikou := chikouAt cfg bars cur
      close := (bars[cur]?).map Bar.close
      cloud_top := pyMax (senkouAAt cfg bars cur) (senkouBAt cfg bars cur)
      cloud_bottom := pyMin (senkouAAt cfg bars cur) (senkouBAt cfg bars cur)
      prev_tenkan := tenkanAt cfg bars prev
      prev_kijun := kijunAt cfg bars prev
      prev_senkou_a := senkouAAt cfg bars prev
      prev_senkou_b := senkouBAt cfg bars prev
      prev_chikou := chikouAt cfg bars prev
      prev_close := (bars[prev]?).map Bar.close
      prev_cloud_top := pyMax (senkouAAt cfg bars prev) (senkouBAt cfg bars prev)
      prev_cloud_bottom := pyMin (senkouAAt cfg bars prev) (senkouBAt cfg bars prev) }

/-- `DetectorConfig` dataclass with its defaults. -/
structure DetectorConfig where
  cooldown_minutes : ℤ := 30
  cloud_filter : Bool := true
  strong_signal_only : Bool := false
deriving DecidableEq

/-- Python `a <= b` on floats where `NaN` makes every comparison false. -/
def pyLe : Option ℚ → Option ℚ → Bool
  | some x, some y => decide (x ≤ y)
  | _, _ => false

/-- Python `a < b` under `NaN` semantics. -/
def pyLt : Option ℚ → Option ℚ → Bool
  | some x, some y => decide (x < y)
  | _, _ => false

/-- Python `a >= b` under `NaN` semantics. -/
def pyGe : Option ℚ → Option ℚ → Bool
  | some x, some y => decide (y ≤ x)
  | _, _ => false

/-- Python `a > b` under `NaN` semantics. -/
def pyGt : Option ℚ → Option ℚ → Bool
  | some x, some y => decide (y < x)
  | _, _ => false

/-- Evidence mapping attached to a fired rule. -/
abbrev Details := List (String × Option ℚ)

/-- An emitted `Signal` record. -/
structure Signal where
  pair : String
  timeframe : String
  signal_type : String
  direction : String
  timestamp : ℚ
  price : Option ℚ
  details : Details
deriving DecidableEq

/-- `SignalDetector._tk_cross_up`. -/
def tkCrossUp (cfg : DetectorConfig) (ind : LatestValues) : Bool × Details :=
  let cross := pyLe ind.prev_tenkan ind.prev_kijun && pyGt ind.tenkan ind.kijun
  if !cross then (false, [])
  else if cfg.cloud_filter && pyLt ind.close ind.cloud_top then (false, [])
  else (true, [("tenkan", ind.tenkan), ("kijun", ind.kijun), ("cloud_top", ind.cloud_top)])

/-- `SignalDetector._tk_cross_down`. -/
def tkCrossDown (cfg : DetectorConfig) (ind : LatestValues) : Bool × Details :=
  let cross := pyGe ind.prev_tenkan ind.prev_kijun && pyLt ind.tenkan ind.kijun
  if !cross then (false, [])
  else if cfg.cloud_filter && pyGt ind.close ind.cloud_bottom then (false, [])
  else (true, [("tenkan", ind.tenkan), ("kijun", ind.kijun), ("cloud_bottom", ind.cloud_bottom)])

/-- `SignalDetector._kumo_breakout_up`. -/
def kumoBreakoutUp (_cfg : DetectorConfig) (ind : LatestValues) : Bool × Details :=
  let fired := pyLe ind.prev_close ind.prev_cloud_top && pyGt ind.close ind.cloud_top
  (fired, if fired then [("cloud_top", ind.cloud_top)] else [])

/-- `SignalDetector._kumo_breakout_down`. -/
def kumoBreakoutDown (_cfg : DetectorConfig) (ind : LatestValues) : Bool × Details :=
  let fired := pyGe ind.prev_close ind.prev_cloud_bottom && pyLt ind.close ind.cloud_bottom
  (fired, if fired then [("cloud_bottom", ind.cloud_bottom)] else [])

/-- `SignalDetector._chikou_cross_up`. -/
def chikouCrossUp (_cfg : DetectorConfig) (ind : LatestValues) : Bool × Details :=
  let fired := pyLe ind.prev_chikou ind.prev_close && pyGt ind.chikou ind.prev_close
  (fired, if fired then [("chikou", ind.chikou), ("ref_close", ind.prev_close)] else [])

/-- `SignalDetector._chikou_cross_down`. -/
def chikouCrossDown (_cfg : DetectorConfig) (ind : LatestValues) : Bool × Details :=
  let fired := pyGe ind.prev_chikou ind.prev_close && pyLt ind.chikou ind.prev_close
  (fired, if fired then [("chikou", ind.chikou), ("ref_close", ind.prev_close)] else [])

/-- The fixed `rules` table of `SignalDetector.check`, in source order. -/
def rulesTable : List (String × (DetectorConfig → LatestValues → Bool × Details)) :=
  [("tk_cross_up", tkCrossUp),
   ("tk_cross_down", tkCrossDown),
   ("kumo_breakout_up", kumoBreakoutUp),
   ("kumo_breakout_down", kumoBreakoutDown),
   ("chikou_cross_up", chikouCrossUp),
   ("chikou_cross_down", chikouCrossDown)]

/-- `SignalDetector.ALL_SIGNALS` (a set; only membership is ever used). -/
def allSignals : List String :=
  ["tk_cross_up", "tk_cross_down", "kumo_breakout_up", "kumo_breakout_down",
   "chikou_cross_up", "chikou_cross_down"]

/-- Cooldown registry key `(pair, timeframe, signal_type)`. -/
abbrev CooldownKey := String × String × String

/-- The `_last_signal_time` dict, as an association list. -/
abbrev Registry := List (CooldownKey × ℚ)

/-- `dict.get(key)` on the registry. -/
def lookupReg (reg : Registry) (k : CooldownKey) : Option ℚ :=
  match reg with
  | [] => none
  | (k', t) :: rest => if k' = k then some t else lookupReg rest k

/-- `dict[key] = t` on the registry: replace in place, or add at the end. -/
def recordReg (reg : Registry) (k : CooldownKey) (t : ℚ) : Registry :=
  match reg with
  | [] => [(k, t)]
  | (k', t') :: rest =>
      if k' = k then (k, t) :: rest else (k', t') :: recordReg rest k t

/-- `SignalDetector._on_cooldown`: true when a last firing is registered
for the key and strictly less than `cooldown_minutes` have elapsed. -/
def onCooldown (cfg : DetectorConfig) (reg : Registry) (pair timeframe st : String)
    (now : ℚ) : Bool :=
  match lookupReg reg (pair, timeframe, st) with
  | none => false
  | some last => decide (now - last < (cfg.cooldown_minutes : ℚ))

/-- `_has_nan(indicators)`: some value of the dict is `NaN`. -/
def hasNan (ind : LatestValues) : Bool :=
  ind.tenkan.isNone || ind.kijun.isNone || ind.senkou_a.isNone ||
  ind.senkou_b.isNone || ind.chikou.isNone || ind.close.isNone ||
  ind.cloud_top.isNone || ind.cloud_bottom.isNone ||
  ind.prev_tenkan.isNone || ind.prev_kijun.isNone || ind.prev_senkou_a.isNone ||
  ind.prev_senkou_b.isNone || ind.prev_chikou.isNone || ind.prev_close.isNone ||
  ind.prev_cloud_top.isNone || ind.prev_cloud_bottom.isNone

/-- The rule loop of `SignalDetector.check`: walk the rules table in
order, skip disabled or non-fired rules, skip fired rules on cooldown,
and otherwise emit a `Signal` and record the firing time under the rule's
key before continuing. -/
def runRules (cfg : DetectorConfig) (enabled : List String) (pair timeframe : String)
    (ind : LatestValues) (now : ℚ) :
    List (String × (DetectorConfig → LatestValues → Bool × Details)) →
    Registry → List Signal × Registry
  | [], reg => ([], reg)
  | (sType, ruleFn) :: rest, reg =>
    if sType ∈ enabled then
      let fd := ruleFn cfg ind
      if fd.1 then
        if onCooldown cfg reg pair timeframe sType now then
          runRules cfg enabled pair timeframe ind now rest reg
        else
          let sig : Signal :=
            { pair := pair, timeframe := timeframe, signal_type := sType
              direction := if sType.endsWith ("_up") then ("BUY") else ("SELL")
              timestamp := now, price := ind.close, details := fd.2 }
          let res := runRules cfg enabled pair timeframe ind now rest
            (recordReg reg (pair, timeframe, sType) now)
          (sig :: res.1, res.2)
      else runRules cfg enabled pair timeframe ind now rest reg
    else runRules cfg enabled pair timeframe ind now rest reg

/-- `SignalDetector.check`: skip everything when any indicator value is
`NaN`, otherwise run the rule loop.  Returns the emitted signals and the
updated cooldown registry. -/
def check (cfg : DetectorConfig) (enabled : List String) (pair timeframe : String)
    (ind : LatestValues) (now : ℚ) (reg : Registry) : List Signal × Registry :=
  if hasNan ind then ([], reg)
  else runRules cfg enabled pair timeframe ind now rulesTable reg

/-- `SignalDetector.__init__`: stores config (or defaults), the enabled
whitelist (or all six), and an *empty* cooldown registry. -/
def signalDetectorInit (config : Option DetectorConfig)
    (enabledSignals : Option (List String)) :
    DetectorConfig × List String × Registry :=
  (config.getD {}, enabledSignals.getD allSignals, [])

/-- `BacktestConfig` dataclass with its defaults. -/
structure BacktestConfig where
  ichimoku : IchimokuConfig := {}
  detector : DetectorConfig := {}
  warmup_candles : ℕ := 100
  buffer_size : ℕ := 300
deriving DecidableEq

/-- The replay loop state: the buffer contents, the detector's cooldown
registry, and the signals collected so far. -/
structure RunState where
  buf : List Bar
  reg : Registry
  events : List Signal
deriving DecidableEq

/-- One iteration of `BacktestEngine.run`'s replay loop: append the bar to
the buffer; if the buffer is not yet `is_ready` (fewer than
`DEFAULT_MIN` candles), continue; otherwise compute `latest_values` on
the buffer and run `detector.check` at the bar's timestamp. -/
def runStep (cfg : BacktestConfig) (symbol timeframe : String)
    (enabled : List String) (st : RunState) (bar : Bar) : RunState :=
  let buf := appendData cfg.buffer_size st.buf [bar]
  if buf.length < DEFAULT_MIN then { st with buf := buf }
  else
    let ind := latestValues cfg.ichimoku buf
    let res := check cfg.detector enabled symbol timeframe ind bar.time st.reg
    { buf := buf, reg := res.2, events := st.events ++ res.1 }

/-- The loop state just before replay begins: the buffer seeded with the
first `warmup_candles` bars, a given cooldown registry, no events. -/
def initState (cfg : BacktestConfig) (candles : List Bar) (reg : Registry) : RunState :=
  { buf := seedData cfg.buffer_size (candles.take cfg.warmup_candles)
    reg := reg, events := [] }

/-- `BacktestEngine.run`, generalized over the initial cooldown registry
of the `SignalDetector` it constructs.  Raises (`.error`) when the candle
count is not strictly greater than `warmup_candles`; constructing the
`CandleBuffer` then raises when `buffer_size < DEFAULT_MIN`.  Otherwise
seeds the buffer with the first `warmup_candles` bars and folds the
replay loop over the remaining bars in order. -/
def runWithRegistry (cfg : BacktestConfig) (symbol timeframe : String)
    (candles : List Bar) (enabledSignals : Option (List String))
    (reg : Registry) : Except String (List Signal) :=
  if candles.length ≤ cfg.warmup_candles then
    .error ("Not enough candles for backtest")
  else if cfg.buffer_size < DEFAULT_MIN then
    .error ("max_size must be >= min_candles")
  else
    .ok (((candles.drop cfg.warmup_candles).foldl
      (runStep cfg symbol timeframe (enabledSignals.getD allSignals))
      (initState cfg candles reg)).events)

/-- `BacktestEngine.run`: the engine constructs a fresh `SignalDetector`,
whose `__init__` sets an empty cooldown registry. -/
def run (cfg : BacktestConfig) (symbol timeframe : String) (candles : List Bar)
    (enabledSignals : Option (List String)) : Except String (List Signal) :=
  runWithRegistry cfg symbol timeframe candles enabledSignals
    ((signalDetectorInit (some cfg.detector) enabledSignals).2.2)

/-- The loop state after the first `k` replay iterations of a (fresh)
run — used to talk about what the buffer holds at each evaluation. -/
def runPrefix (cfg : BacktestConfig) (symbol timeframe : String)
    (enabled : List String) (candles : List Bar) (k : ℕ) : RunState :=
  ((candles.drop cfg.warmup_candles).take k).foldl
    (runStep cfg symbol timeframe enabled) (initState cfg candles [])

/-- `Except.isOk`-style observer used to state fail-fast claims. -/
def isOkE {ε α : Type} : Except ε α → Bool
  | .ok _ => true
  | .error _ => false

/-- A candle with all four prices equal to 1, used for concrete scenarios. -/
def unitBar (t : ℚ) : Bar := ⟨t, 1, 1, 1, 1⟩

/-! ### Helper lemmas -/

lemma latestValues_cloud_top (cfg : IchimokuConfig) (bars : List Bar) :
    (latestValues cfg bars).cloud_top =
      pyMax (latestValues cfg bars).senkou_a (latestValues cfg bars).senkou_b := by
  unfold latestValues
  split <;> rfl

lemma latestValues_cloud_bottom (cfg : IchimokuConfig) (bars : List Bar) :
    (latestValues cfg bars).cloud_bottom =
      pyMin (latestValues cfg bars).senkou_a (latestValues cfg bars).senkou_b := by
  unfold latestValues
  split <;> rfl

lemma latestValues_prev_cloud_top (cfg : IchimokuConfig) (bars : List Bar) :
    (latestValues cfg bars).prev_cloud_top =
      pyMax (latestValues cfg bars).prev_senkou_a (latestValues cfg bars).prev_senkou_b := by
  unfold latestValues
  split <;> rfl

lemma latestValues_prev_cloud_bottom (cfg : IchimokuConfig) (bars : List Bar) :
    (latestValues cfg bars).prev_cloud_bottom =
      pyMin (latestValues cfg bars).prev_senkou_a (latestValues cfg bars).prev_senkou_b := by
  unfold latestValues
  split <;> rfl

lemma pyMax_none_left (b : Option ℚ) : pyMax none b = none := rfl

lemma pyMin_none_left (b : Option ℚ) : pyMin none b = none := rfl

lemma qmax_eq_max (a b : ℚ) : qmax a b = max a b := by
  by_cases h : a < b
  · simp [qmax, h, max_eq_right h.le]
  · simp [qmax, h, max_eq_left (le_of_not_lt h)]

lemma qmin_eq_min (a b : ℚ) : qmin a b = min a b := by
  by_cases h : b < a
  · simp [qmin, h, min_eq_right h.le]
  · simp [qmin, h, min_eq_left (le_of_not_lt h)]

lemma timesStrictMono_iff_pairwise (l : List Bar) :
    timesStrictMono l = true ↔ l.Pairwise timeLT := by
  rw [← List.chain'_iff_pairwise]
  induction l with
  | nil => simp [timesStrictMono]
  | cons a t ih =>
    cases t with
    | nil => simp [timesStrictMono]
    | cons b rest =>
      show (decide (a.time < b.time) && timesStrictMono (b :: rest)) = true ↔ _
      rw [Bool.and_eq_true, decide_eq_true_iff, List.chain'_cons, ih]
      exact Iff.rfl

lemma timesSortedLE_iff_pairwise (l : List Bar) :
    timesSortedLE l = true ↔ l.Pairwise timeLE := by
  rw [← List.chain'_iff_pairwise]
  induction l with
  | nil => simp [timesSortedLE]
  | cons a t ih =>
    cases t with
    | nil => simp [timesSortedLE]
    | cons b rest =>
      show (decide (a.time ≤ b.time) && timesSortedLE (b :: rest)) = true ↔ _
      rw [Bool.and_eq_true, decide_eq_true_iff, List.chain'_cons, ih]
      exact Iff.rfl

lemma prepare_pairwise_le (df : List Bar) : (prepare df).Pairwise timeLE :=
  List.sorted_insertionSort timeLE df

lemma prepare_perm (df : List Bar) : List.Perm (prepare df) df :=
  List.perm_insertionSort timeLE df

lemma pairwise_lt_of_le_nodup (l : List Bar) (hle : l.Pairwise timeLE)
    (hnd : (l.map Bar.time).Nodup) : l.Pairwise timeLT := by
  have hne : l.Pairwise (fun a b => a.time ≠ b.time) := List.pairwise_map.mp hnd
  exact (hle.and hne).imp (fun h => lt_of_le_of_ne h.1 h.2)

lemma prepare_pairwise_lt (df : List Bar) (hnd : (df.map Bar.time).Nodup) :
    (prepare df).Pairwise timeLT :=
  pairwise_lt_of_le_nodup _ (prepare_pairwise_le df)
    (((prepare_perm df).map Bar.time).nodup_iff.mpr hnd)

lemma tailN_sublist (n : ℕ) (l : List Bar) : List.Sublist (tailN n l) l :=
  List.drop_sublist _ _

lemma tailN_length_le (n : ℕ) (l : List Bar) : (tailN n l).length ≤ n := by
  simp only [tailN, List.length_drop]
  omega

lemma tailN_eq_of_length_le {n : ℕ} {l : List Bar} (h : l.length ≤ n) :
    tailN n l = l := by
  have h0 : l.length - n = 0 := by omega
  simp [tailN, h0]

lemma hasTime_iff (l : List Bar) (t : ℚ) :
    hasTime l t = true ↔ ∃ b ∈ l, b.time = t := by
  simp [hasTime]

lemma newBarsOf_mem {cur df : List Bar} {b : Bar} (hb : b ∈ newBarsOf cur df) :
    b ∈ df ∧ hasTime cur b.time = false := by
  unfold newBarsOf at hb
  refine ⟨(prepare_perm df).subset (List.mem_of_mem_filter hb), ?_⟩
  have := List.of_mem_filter hb
  simpa using this

lemma newBarsOf_pairwise_lt (cur df : List Bar)
    (hnd : (df.map Bar.time).Nodup) : (newBarsOf cur df).Pairwise timeLT :=
  (prepare_pairwise_lt df hnd).sublist (List.filter_sublist _)

lemma appendData_cases (maxSize : ℕ) (cur df : List Bar) :
    appendData maxSize cur df = cur ∨
      appendData maxSize cur df = tailN maxSize (cur ++ newBarsOf cur df) := by
  unfold appendData
  by_cases h : (newBarsOf cur df).isEmpty
  · exact Or.inl (by simp [h])
  · exact Or.inr (by simp [h])

lemma appendData_subset (maxSize : ℕ) (cur df : List Bar) :
    ∀ b ∈ appendData maxSize cur df, b ∈ cur ∨ b ∈ df := by
  intro b hb
  rcases appendData_cases maxSize cur df with h | h
  · rw [h] at hb
    exact Or.inl hb
  · rw [h] at hb
    rcases List.mem_append.mp ((tailN_sublist _ _).subset hb) with h' | h'
    · exact Or.inl h'
    · exact Or.inr (newBarsOf_mem h').1

lemma seedData_subset (maxSize : ℕ) (df : List Bar) :
    ∀ b ∈ seedData maxSize df, b ∈ df := by
  intro b hb
  exact (prepare_perm df).subset ((tailN_sublist _ _).subset hb)

lemma lookupReg_recordReg_self (reg : Registry) (k : CooldownKey) (t : ℚ) :
    lookupReg (recordReg reg k t) k = some t := by
  induction reg with
  | nil => simp [recordReg, lookupReg]
  | cons e rest ih =>
    obtain ⟨k', t'⟩ := e
    by_cases h : k' = k
    · simp [recordReg, h, lookupReg]
    · simp [recordReg, h, lookupReg, ih]

lemma lookupReg_recordReg_ne (reg : Registry) (k k' : CooldownKey) (t : ℚ)
    (h : k' ≠ k) :
    lookupReg (recordReg reg k' t) k = lookupReg reg k := by
  induction reg with
  | nil => simp [recordReg, lookupReg, h]
  | cons e rest ih =>
    obtain ⟨k₀, t₀⟩ := e
    by_cases h₀ : k₀ = k'
    · subst h₀
      simp [recordReg, lookupReg, h]
    · by_cases hk : k₀ = k
      · simp [recordReg, h₀, lookupReg, hk, Ne.symm h]
      · simp [recordReg, h₀, lookupReg, hk, ih]

lemma onCooldown_lookup_eq (cfg : DetectorConfig) (reg reg' : Registry)
    (pair tf st : String) (now : ℚ)
    (h : lookupReg reg' (pair, tf, st) = lookupReg reg (pair, tf, st)) :
    onCooldown cfg reg' pair tf st now = onCooldown cfg reg pair tf st now := by
  unfold onCooldown
  rw [h]

lemma onCooldown_recordReg_ne (cfg : DetectorConfig) (reg : Registry)
    (pair tf st st' : String) (now t : ℚ) (h : st' ≠ st) :
    onCooldown cfg (recordReg reg (pair, tf, st') t) pair tf st now =
      onCooldown cfg reg pair tf st now := by
  apply onCooldown_lookup_eq
  apply lookupReg_recordReg_ne
  intro hk
  have hst : st' = st := by
    have h2 := congrArg (fun k : CooldownKey => k.2.2) hk
    simpa using h2
  exact h hst

/-- Every signal emitted by the rule loop carries the `candle_time` it was
called with as its timestamp. -/
lemma runRules_timestamp (cfg : DetectorConfig) (enabled : List String)
    (pair tf : String) (ind : LatestValues) (now : ℚ) :
    ∀ (rules : List (String × (DetectorConfig → LatestValues → Bool × Details)))
      (reg : Registry),
      ∀ s ∈ (runRules cfg enabled pair tf ind now rules reg).1, s.timestamp = now := by
  intro rules
  induction rules with
  | nil => intro reg s hs; simp [runRules] at hs
  | cons e rest ih =>
    obtain ⟨st, f⟩ := e
    intro reg s hs
    by_cases he : st ∈ enabled
    · by_cases hf : (f cfg ind).1
      · by_cases hc : onCooldown cfg reg pair tf st now
        · rw [runRules, if_pos he, if_pos hf, if_pos hc] at hs
          exact ih reg s hs
        · rw [runRules, if_pos he, if_pos hf, if_neg hc] at hs
          rcases List.mem_cons.mp hs with h | h
          · rw [h]
          · exact ih _ s h
      · rw [runRules, if_pos he, if_neg hf] at hs
        exact ih reg s hs
    · rw [runRules, if_neg he] at hs
      exact ih reg s hs

/-- Membership characterization of the rule loop, assuming the rule kinds
in the table are distinct: a signal of a given kind is emitted iff that
kind's rule is in the table, enabled, fired, and its own key is not on
cooldown in the *incoming* registry. -/
lemma runRules_mem_iff (cfg : DetectorConfig) (enabled : List String)
    (pair tf : String) (ind : LatestValues) (now : ℚ) :
    ∀ (rules : List (String × (DetectorConfig → LatestValues → Bool × Details)))
      (reg : Registry) (kind : String), (rules.map Prod.fst).Nodup →
      ((∃ s ∈ (runRules cfg enabled pair tf ind now rules reg).1,
          s.signal_type = kind) ↔
        (∃ fn, (kind, fn) ∈ rules ∧ kind ∈ enabled ∧ (fn cfg ind).1 = true ∧
          onCooldown cfg reg pair tf kind now = false)) := by
  intro rules
  induction rules with
  | nil => intro reg kind _; simp [runRules]
  | cons e rest ih =>
    obtain ⟨st, f⟩ := e
    intro reg kind hnd
    have hnd' : (rest.map Prod.fst).Nodup := (List.nodup_cons.mp hnd).2
    have hst : st ∉ rest.map Prod.fst := (List.nodup_cons.mp hnd).1
    have hrest_ne : ∀ fn, (st, fn) ∈ rest → False := by
      intro fn hmem
      exact hst (List.mem_map.mpr ⟨(st, fn), hmem, rfl⟩)
    by_cases hkind : kind = st
    · subst hkind
      by_cases he : kind ∈ enabled
      · by_cases hf : (f cfg ind).1
        · by_cases hc : onCooldown cfg reg pair tf kind now
          · rw [runRules, if_pos he, if_pos hf, if_pos hc]
            rw [ih reg kind hnd']
            constructor
            · rintro ⟨fn, hmem, -⟩
              exact absurd hmem (fun h => hrest_ne fn h)
            · rintro ⟨fn, hmem, -, -, hcool⟩
              rcases List.mem_cons.mp hmem with h | h
              · have : fn = f := by injection h
                rw [hc] at hcool
                exact absurd hcool (by simp)
              · exact absurd h (fun h => hrest_ne fn h)
          · rw [runRules, if_pos he, if_pos hf, if_neg hc]
            constructor
            · intro _
              exact ⟨f, List.mem_cons_self _ _, he, (by simpa using hf),
                (by simpa using hc)⟩
            · intro _
              refine ⟨_, List.mem_cons_self _ _, rfl⟩
        · rw [runRules, if_pos he, if_neg hf]
          rw [ih reg kind hnd']
          constructor
          · rintro ⟨fn, hmem, -⟩
            exact absurd hmem (fun h => hrest_ne fn h)
          · rintro ⟨fn, hmem, -, hfired, -⟩
            rcases List.mem_cons.mp hmem with h | h
            · have : fn = f := by injection h
              rw [this] at hfired
              exact absurd hfired (by simpa using hf)
            · exact absurd h (fun h => hrest_ne fn h)
      · rw [runRules, if_neg he]
        rw [ih reg kind hnd']
        constructor
        · rintro ⟨fn, hmem, -⟩
          exact absurd hmem (fun h => hrest_ne fn h)
        · rintro ⟨fn, -, henab, -⟩
          exact absurd henab he
    · have hhead : ∀ fn, ((kind, fn) = (st, f)) → False := by
        intro fn h
        exact hkind (by injection h)
      have hsplit : ∀ (reg' : Registry),
          (∃ fn, (kind, fn) ∈ (st, f) :: rest ∧ kind ∈ enabled ∧
            (fn cfg ind).1 = true ∧
            onCooldown cfg reg' pair tf kind now = false) ↔
          (∃ fn, (kind, fn) ∈ rest ∧ kind ∈ enabled ∧ (fn cfg ind).1 = true ∧
            onCooldown cfg reg' pair tf kind now = false) := by
        intro reg'
        constructor
        · rintro ⟨fn, hmem, h₁, h₂, h₃⟩
          rcases List.mem_cons.mp hmem with h | h
          · exact absurd h (hhead fn)
          · exact ⟨fn, h, h₁, h₂, h₃⟩
        · rintro ⟨fn, hmem, h₁, h₂, h₃⟩
          exact ⟨fn, List.mem_cons_of_mem _ hmem, h₁, h₂, h₃⟩
      by_cases he : st ∈ enabled
      · by_cases hf : (f cfg ind).1
        · by_cases hc : onCooldown cfg reg pair tf st now
          · rw [runRules, if_pos he, if_pos hf, if_pos hc]
            rw [ih reg kind hnd', hsplit reg]
          · rw [runRules, if_pos he, if_pos hf, if_neg hc]
            have hcool_eq :
                onCooldown cfg (recordReg reg (pair, tf, st) now) pair tf kind now =
                  onCooldown cfg reg pair tf kind now :=
              onCooldown_recordReg_ne cfg reg pair tf kind st now now
                (fun h => hkind h.symm)
            constructor
            · rintro ⟨s, hs, hskind⟩
              rcases List.mem_cons.mp hs with h | h
              · exact absurd (h ▸ hskind :
                  ({ pair := pair, timeframe := tf, signal_type := st
                     direction := if st.endsWith ("_up") then ("BUY") else ("SELL")
                     timestamp := now, price := ind.close,
                     details := (f cfg ind).2 } : Signal).signal_type = kind)
                  (fun hh => hkind (hh.symm ▸ rfl))
              · have := (ih (recordReg reg (pair, tf, st) now) kind hnd').mp ⟨s, h, hskind⟩
                rw [hcool_eq] at this
                exact (hsplit reg).mpr this
            · intro hx
              have hx' := (hsplit reg).mp hx
              rw [← hcool_eq] at hx'
              obtain ⟨s, hs, hskind⟩ :=
                (ih (recordReg reg (pair, tf, st) now) kind hnd').mpr hx'
              exact ⟨s, List.mem_cons_of_mem _ hs, hskind⟩
        · rw [runRules, if_pos he, if_neg hf]
          rw [ih reg kind hnd', hsplit reg]
      · rw [runRules, if_neg he]
        rw [ih reg kind hnd', hsplit reg]

/-- Exact effect of the rule loop on the registry: a key maps to `now`
iff a signal with that key was just emitted; every other key keeps its
incoming value. -/
lemma runRules_lookup (cfg : DetectorConfig) (enabled : List String)
    (pair tf : String) (ind : LatestValues) (now : ℚ) :
    ∀ (rules : List (String × (DetectorConfig → LatestValues → Bool × Details)))
      (reg : Registry) (key : CooldownKey),
      lookupReg (runRules cfg enabled pair tf ind now rules reg).2 key =
        if key ∈ (runRules cfg enabled pair tf ind now rules reg).1.map
            (fun s => (s.pair, s.timeframe, s.signal_type)) then some now
        else lookupReg reg key := by
  intro rules
  induction rules with
  | nil => intro reg key; simp [runRules]
  | cons e rest ih =>
    obtain ⟨st, f⟩ := e
    intro reg key
    by_cases he : st ∈ enabled
    · by_cases hf : (f cfg ind).1
      · by_cases hc : onCooldown cfg reg pair tf st now
        · rw [runRules, if_pos he, if_pos hf, if_pos hc]
          exact ih reg key
        · rw [runRules, if_pos he, if_pos hf, if_neg hc]
          by_cases hkey : key = (pair, tf, st)
          · subst hkey
            rw [ih (recordReg reg (pair, tf, st) now) (pair, tf, st)]
            by_cases hmem : (pair, tf, st) ∈
                (runRules cfg enabled pair tf ind now rest
                  (recordReg reg (pair, tf, st) now)).1.map
                  (fun s => (s.pair, s.timeframe, s.signal_type))
            · simp [hmem]
            · simp [hmem, lookupReg_recordReg_self]
          · rw [ih (recordReg reg (pair, tf, st) now) key,
              lookupReg_recordReg_ne reg key (pair, tf, st) now
                (fun h => hkey h.symm)]
            simp only [List.map_cons, List.mem_cons]
            have : ¬ key = (pair, tf, st) := hkey
            simp [this]
      · rw [runRules, if_pos he, if_neg hf]
        exact ih reg key
    · rw [runRules, if_neg he]
      exact ih reg key

lemma take_subset_take_of_le {α : Type} {m n : ℕ} (h : m ≤ n) (l : List α) :
    l.take m ⊆ l.take n := by
  intro b hb
  have heq : l.take m = (l.take n).take m := by
    rw [List.take_take, Nat.min_eq_left h]
  rw [heq] at hb
  exact List.take_subset _ _ hb

lemma runStep_buf (cfg : BacktestConfig) (symbol timeframe : String)
    (en : List String) (st : RunState) (bar : Bar) :
    (runStep cfg symbol timeframe en st bar).buf =
      appendData cfg.buffer_size st.buf [bar] := by
  simp only [runStep]
  split <;> rfl

/-- Every event present after a replay step is either an old event or a
signal stamped with the stepped bar's own timestamp. -/
lemma runStep_events_mem (cfg : BacktestConfig) (symbol timeframe : String)
    (en : List String) (st : RunState) (bar : Bar) :
    ∀ e ∈ (runStep cfg symbol timeframe en st bar).events,
      e ∈ st.events ∨ e.timestamp = bar.time := by
  intro e he
  simp only [runStep] at he
  by_cases hr : (appendData cfg.buffer_size st.buf [bar]).length < DEFAULT_MIN
  · rw [if_pos hr] at he
    exact Or.inl he
  · rw [if_neg hr] at he
    rcases List.mem_append.mp he with h | h
    · exact Or.inl h
    · refine Or.inr ?_
      by_cases hn : hasNan (latestValues cfg.ichimoku
          (appendData cfg.buffer_size st.buf [bar]))
      · simp [check, hn] at h
      · simp only [check, hn, Bool.false_eq_true, if_false] at h
        exact runRules_timestamp cfg.detector en symbol timeframe _ bar.time
          rulesTable st.reg e h

/-- Events accumulated by folding the replay step: each is an initial
event or carries the timestamp of one of the folded bars. -/
lemma foldl_events_mem (cfg : BacktestConfig) (symbol timeframe : String)
    (en : List String) :
    ∀ (l : List Bar) (st : RunState),
      ∀ e ∈ (l.foldl (runStep cfg symbol timeframe en) st).events,
        e ∈ st.events ∨ e.timestamp ∈ l.map Bar.time := by
  intro l
  induction l with
  | nil => intro st e he; exact Or.inl he
  | cons x xs ih =>
    intro st e he
    rw [List.foldl_cons] at he
    rcases ih (runStep cfg symbol timeframe en st x) e he with h | h
    · rcases runStep_events_mem cfg symbol timeframe en st x e h with h' | h'
      · exact Or.inl h'
      · exact Or.inr (by simp [h'])
    · exact Or.inr (by simp only [List.map_cons, List.mem_cons]; exact Or.inr h)

lemma runPrefix_zero (cfg : BacktestConfig) (symbol timeframe : String)
    (en : List String) (candles : List Bar) :
    runPrefix cfg symbol timeframe en candles 0 = initState cfg candles [] := by
  simp [runPrefix]

lemma runPrefix_succ (cfg : BacktestConfig) (symbol timeframe : String)
    (en : List String) (candles : List Bar) (k : ℕ)
    (hk : k < (candles.drop cfg.warmup_candles).length) :
    runPrefix cfg symbol timeframe en candles (k + 1) =
      runStep cfg symbol timeframe en
        (runPrefix cfg symbol timeframe en candles k)
        ((candles.drop cfg.warmup_candles).get ⟨k, hk⟩) := by
  show ((candles.drop cfg.warmup_candles).take (k + 1)).foldl _ _ = _
  rw [List.take_succ, List.getElem?_eq_getElem hk, List.foldl_append]
  rfl

lemma runPrefix_succ_of_le (cfg : BacktestConfig) (symbol timeframe : String)
    (en : List String) (candles : List Bar) (k : ℕ)
    (hk : (candles.drop cfg.warmup_candles).length ≤ k) :
    runPrefix cfg symbol timeframe en candles (k + 1) =
      runPrefix cfg symbol timeframe en candles k := by
  unfold runPrefix
  rw [List.take_of_length_le hk, List.take_of_length_le (le_trans hk (Nat.le_succ k))]

/-- Buffer containment invariant of the replay: after `k` replay
iterations, every bar in the buffer comes from the first
`warmup_candles + k` input bars. -/
lemma runPrefix_buf_subset (cfg : BacktestConfig) (symbol timeframe : String)
    (en : List String) (candles : List Bar) :
    ∀ k, ∀ b ∈ (runPrefix cfg symbol timeframe en candles k).buf,
      b ∈ candles.take (cfg.warmup_candles + k) := by
  intro k
  induction k with
  | zero =>
    intro b hb
    rw [runPrefix_zero] at hb
    have hseed : b ∈ candles.take cfg.warmup_candles :=
      seedData_subset cfg.buffer_size (candles.take cfg.warmup_candles) b hb
    simpa using hseed
  | succ k ih =>
    intro b hb
    by_cases hk : k < (candles.drop cfg.warmup_candles).length
    · rw [runPrefix_succ cfg symbol timeframe en candles k hk, runStep_buf] at hb
      rcases appendData_subset _ _ _ b hb with h | h
      · exact take_subset_take_of_le (by omega) candles (ih b h)
      · have hb_eq : b = (candles.drop cfg.warmup_candles).get ⟨k, hk⟩ := by
          simpa using h
        have hlen : cfg.warmup_candles + k < candles.length := by
          have := hk
          simp only [List.length_drop] at this
          omega
        have hget : (candles.drop cfg.warmup_candles).get ⟨k, hk⟩ =
            candles.get ⟨cfg.warmup_candles + k, hlen⟩ := by
          simp [List.getElem_drop]
        rw [hb_eq, hget]
        have hidx : cfg.warmup_candles + (k + 1) = cfg.warmup_candles + k + 1 := by
          omega
        have : candles.take (cfg.warmup_candles + k + 1) =
            candles.take (cfg.warmup_candles + k) ++
              (candles[cfg.warmup_candles + k]?).toList := List.take_succ
        rw [hidx, this, List.getElem?_eq_getElem hlen]
        exact List.mem_append.mpr (Or.inr (by simp))
    · rw [runPrefix_succ_of_le cfg symbol timeframe en candles k
        (le_of_not_lt hk)] at hb
      exact take_subset_take_of_le (by omega) candles (ih b hb)

/-- In a weakly time-sorted input, the bar at the warm-up boundary is no
later than any bar of the replay segment. -/
lemma sorted_head_le (candles : List Bar) (w : ℕ)
    (hsort : timesSortedLE candles = true) (hw : w < candles.length) :
    ∀ t ∈ (candles.drop w).map Bar.time, (candles.get ⟨w, hw⟩).time ≤ t := by
  intro t ht
  have hpw : candles.Pairwise timeLE := (timesSortedLE_iff_pairwise candles).mp hsort
  have hdrop : candles.drop w = candles.get ⟨w, hw⟩ :: candles.drop (w + 1) :=
    List.drop_eq_getElem_cons hw
  have hpw' : (candles.drop w).Pairwise timeLE :=
    hpw.sublist (List.drop_sublist w candles)
  rw [hdrop] at hpw' ht
  obtain ⟨x, hx, hxt⟩ := List.mem_map.mp ht
  rcases List.mem_cons.mp hx with h | h
  · rw [← hxt, h]
  · rw [← hxt]
    exact (List.pairwise_cons.mp hpw').1 x h

/-! ### Claim theorems -/

/-- Configuration and window exhibiting a defined `senkou_a` together with
an undefined `senkou_b` at the newest position. -/
def cloudCfg : IchimokuConfig :=
  { tenkan_period := 1, kijun_period := 1, senkou_b_period := 3
    displacement := 1, chikou_shift := 1 }

/-- Three-bar window for the `cloudCfg` scenario. -/
def cloudBars : List Bar :=
  [⟨0, 1, 2, 1, 1⟩, ⟨1, 1, 4, 2, 3⟩, ⟨2, 1, 6, 3, 5⟩]

/-- C4 counterexample: a window whose snapshot has `senkou_b` undefined
yet both cloud edges *defined* (equal to `senkou_a`), because Python's
`max`/`min` return their first argument when the second is `NaN`.  This
refutes "cloud top and bottom are undefined whenever either senkou input
is undefined". -/
theorem C4_counterexample :
    (latestValues cloudCfg cloudBars).senkou_a = some 3 ∧
    (latestValues cloudCfg cloudBars).senkou_b = none ∧
    (latestValues cloudCfg cloudBars).cloud_top = some 3 ∧
    (latestValues cloudCfg cloudBars).cloud_bottom = some 3 := by
  refine ⟨?_, ?_, ?_, ?_⟩ <;>
    norm_num [latestValues, cloudCfg, cloudBars, senkouAAt, senkouBAt,
      tenkanAt, kijunAt, midpointAt, windowSlice, foldMax, foldMin,
      qmax, qmin, pyMax, pyMin]

/-- C4 (amended): in every snapshot, for the current and the previous
position alike, the cloud edges follow Python `max`/`min` `NaN` semantics:
they are undefined exactly when `senkou_a` is undefined; when `senkou_a`
is defined and `senkou_b` is undefined they both equal `senkou_a`; when
both are defined they are the true max/min. -/
theorem C4_cloud_semantics_amended (cfg : IchimokuConfig) (bars : List Bar) :
    ((latestValues cfg bars).senkou_a = none →
      (latestValues cfg bars).cloud_top = none ∧
      (latestValues cfg bars).cloud_bottom = none) ∧
    (∀ a : ℚ, (latestValues cfg bars).senkou_a = some a →
      (latestValues cfg bars).senkou_b = none →
      (latestValues cfg bars).cloud_top = some a ∧
      (latestValues cfg bars).cloud_bottom = some a) ∧
    (∀ a b : ℚ, (latestValues cfg bars).senkou_a = some a →
      (latestValues cfg bars).senkou_b = some b →
      (latestValues cfg bars).cloud_top = some (max a b) ∧
      (latestValues cfg bars).cloud_bottom = some (min a b)) ∧
    ((latestValues cfg bars).prev_senkou_a = none →
      (latestValues cfg bars).prev_cloud_top = none ∧
      (latestValues cfg bars).prev_cloud_bottom = none) ∧
    (∀ a : ℚ, (latestValues cfg bars).prev_senkou_a = some a →
      (latestValues cfg bars).prev_senkou_b = none →
      (latestValues cfg bars).prev_cloud_top = some a ∧
      (latestValues cfg bars).prev_cloud_bottom = some a) ∧
    (∀ a b : ℚ, (latestValues cfg bars).prev_senkou_a = some a →
      (latestValues cfg bars).prev_senkou_b = some b →
      (latestValues cfg bars).prev_cloud_top = some (max a b) ∧
      (latestValues cfg bars).prev_cloud_bottom = some (min a b)) := by
  rw [latestValues_cloud_top, latestValues_cloud_bottom,
    latestValues_prev_cloud_top, latestValues_prev_cloud_bottom]
  refine ⟨fun h => ?_, fun a ha hb => ?_, fun a b ha hb => ?_,
    fun h => ?_, fun a ha hb => ?_, fun a b ha hb => ?_⟩ <;>
    simp_all [pyMax, pyMin, qmax_eq_max, qmin_eq_min]

/-- C4 witness: the amended theorem applied to the empty window, where
`senkou_a` is undefined, discharging the first branch's hypothesis. -/
theorem C4_witness :
    (latestValues {} ([] : List Bar)).senkou_a = none ∧
    ((latestValues {} ([] : List Bar)).cloud_top = none ∧
     (latestValues {} ([] : List Bar)).cloud_bottom = none) :=
  ⟨rfl, (C4_cloud_semantics_amended {} []).1 rfl⟩

/-- C5: whenever any value of the snapshot dict is undefined — in
particular whenever a value referenced by an enabled rule is — `check`
returns no events and leaves the registry untouched, evaluating no rule;
and a snapshot computed from fewer than two bars is the all-undefined
dict, so evaluating it returns the empty list. -/
theorem C5_skip_on_undefined :
    (∀ (cfg : DetectorConfig) (enabled : List String) (pair timeframe : String)
        (ind : LatestValues) (now : ℚ) (reg : Registry),
        hasNan ind = true →
        check cfg enabled pair timeframe ind now reg = ([], reg)) ∧
    (∀ (icfg : IchimokuConfig) (bars : List Bar), bars.length < 2 →
        latestValues icfg bars = nanDict) ∧
    hasNan nanDict = true ∧
    (∀ (cfg : DetectorConfig) (enabled : List String) (pair timeframe : String)
        (icfg : IchimokuConfig) (bars : List Bar) (now : ℚ) (reg : Registry),
        bars.length < 2 →
        check cfg enabled pair timeframe (latestValues icfg bars) now reg = ([], reg)) := by
  have hskip : ∀ (cfg : DetectorConfig) (enabled : List String)
      (pair timeframe : String) (ind : LatestValues) (now : ℚ) (reg : Registry),
      hasNan ind = true → check cfg enabled pair timeframe ind now reg = ([], reg) := by
    intro cfg enabled pair timeframe ind now reg h
    simp [check, h]
  have hnan : ∀ (icfg : IchimokuConfig) (bars : List Bar), bars.length < 2 →
      latestValues icfg bars = nanDict := by
    intro icfg bars h
    simp [latestValues, h]
  refine ⟨hskip, hnan, by decide, ?_⟩
  intro cfg enabled pair timeframe icfg bars now reg h
  rw [hnan icfg bars h]
  exact hskip cfg enabled pair timeframe nanDict now reg (by decide)

/-- C5 witness: the theorem applied at a concrete short window. -/
theorem C5_witness :
    ([unitBar 0] : List Bar).length < 2 ∧
    check {} allSignals ("EURUSD") ("H1") (latestValues {} [unitBar 0]) 0 [] =
      ([], []) :=
  ⟨by decide,
   C5_skip_on_undefined.2.2.2 {} allSignals ("EURUSD") ("H1") {} [unitBar 0] 0 []
     (by decide)⟩

/-- C7 counterexample: with `warmup_candles = 0` and a one-bar sequence
the replay driver starts and completes without any error, refuting
"requires `warmup_count` strictly greater than zero". -/
theorem C7_counterexample :
    run { warmup_candles := 0 } ("EURUSD") ("H1") [unitBar 0] none = .ok [] := by
  rfl

/-- C7 (amended): the replay driver performs no positivity check on
`warmup_candles`; given a buffer capacity of at least the required
minimum history, it fails fast exactly when the sequence has fewer than
`warmup_candles + 1` bars, and starts successfully otherwise. -/
theorem C7_validation_amended (cfg : BacktestConfig) (symbol timeframe : String)
    (candles : List Bar) (enabledSignals : Option (List String))
    (hbuf : DEFAULT_MIN ≤ cfg.buffer_size) :
    isOkE (run cfg symbol timeframe candles enabledSignals) = true ↔
      cfg.warmup_candles < candles.length := by
  by_cases h : candles.length ≤ cfg.warmup_candles
  · simp [run, runWithRegistry, h, isOkE]
  · simp [run, runWithRegistry, h, isOkE, Nat.not_lt.mpr hbuf]
    omega

/-- C7 witness: the amended theorem applied to the default configuration
and an empty candle list. -/
theorem C7_witness :
    DEFAULT_MIN ≤ ({} : BacktestConfig).buffer_size ∧
    (isOkE (run {} ("EURUSD") ("H1") [] none) = true ↔
      ({} : BacktestConfig).warmup_candles < ([] : List Bar).length) :=
  ⟨by decide, C7_validation_amended {} ("EURUSD") ("H1") [] none (by decide)⟩

/-- C8: each replay run is `runWithRegistry` started from the cooldown
registry of a freshly constructed `SignalDetector`, which is empty; and
two runs over the same input with the same configuration produce
identical event lists. -/
theorem C8_fresh_engine_reproducibility (cfg : BacktestConfig)
    (symbol timeframe : String) (candles : List Bar)
    (enabledSignals : Option (List String)) :
    run cfg symbol timeframe candles enabledSignals =
      runWithRegistry cfg symbol timeframe candles enabledSignals
        ((signalDetectorInit (some cfg.detector) enabledSignals).2.2) ∧
    (signalDetectorInit (some cfg.detector) enabledSignals).2.2 = [] ∧
    (∀ evs₁ evs₂ : List Signal,
      run cfg symbol timeframe candles enabledSignals = .ok evs₁ →
      run cfg symbol timeframe candles enabledSignals = .ok evs₂ →
      evs₁ = evs₂) := by
  refine ⟨rfl, rfl, fun evs₁ evs₂ h₁ h₂ => ?_⟩
  rw [h₁] at h₂
  exact (Except.ok.injEq _ _).mp h₂

/-- Small configuration whose replay completes immediately. -/
def tinyCfg : BacktestConfig := { warmup_candles := 1, buffer_size := 78 }

/-- C8 witness: two (definitionally fresh) runs of `tinyCfg` over the
same two-bar input both return `.ok []`, and the theorem yields equality
of the two event lists. -/
theorem C8_witness :
    run tinyCfg ("EURUSD") ("H1") [unitBar 0, unitBar 1] none = .ok [] ∧
    (([] : List Signal) = []) :=
  ⟨rfl, (C8_fresh_engine_reproducibility tinyCfg ("EURUSD") ("H1")
    [unitBar 0, unitBar 1] none).2.2 [] [] rfl rfl⟩

/-- Indicator configuration with every period nonpositive. -/
def zeroCfg : IchimokuConfig :=
  { tenkan_period := 0, kijun_period := 0, senkou_b_period := 0
    displacement := 0, chikou_shift := 0 }

/-- C9 counterexample: constructing the indicator with every period set
to zero succeeds — no `ConfigError` is raised anywhere, refuting the
claimed construction-time validation. -/
theorem C9_counterexample :
    ichimokuIndicatorInit (some zeroCfg) = .ok zeroCfg := rfl

/-- C9 (amended): `IchimokuIndicator.__init__` performs no validation of
the configured periods — construction succeeds for every configuration,
including nonpositive periods. -/
theorem C9_no_period_validation :
    ∀ config : Option IchimokuConfig,
      isOkE (ichimokuIndicatorInit config) = true :=
  fun _ => rfl

/-- C6: per-key cooldown semantics of `check`.  (a) While strictly less
than `cooldown_minutes` has elapsed since the key's registered firing, no
event of that kind is emitted.  (b) When exactly `cooldown_minutes` has
elapsed, an enabled rule whose condition holds emits its event.  (c) A
kind's emission depends only on its own key's registry entry — timers of
other (pair, timeframe, kind) keys are independent. -/
theorem C6_cooldown_semantics (cfg : DetectorConfig) (enabled : List String)
    (pair tf : String) (ind : LatestValues) (now last : ℚ) (kind : String)
    (fn : DetectorConfig → LatestValues → Bool × Details) (reg : Registry)
    (hrule : (kind, fn) ∈ rulesTable)
    (hlast : lookupReg reg (pair, tf, kind) = some last) :
    (now - last < (cfg.cooldown_minutes : ℚ) →
      ∀ s ∈ (check cfg enabled pair tf ind now reg).1, s.signal_type ≠ kind) ∧
    (now - last = (cfg.cooldown_minutes : ℚ) → hasNan ind = false →
      kind ∈ enabled → (fn cfg ind).1 = true →
      ∃ s ∈ (check cfg enabled pair tf ind now reg).1, s.signal_type = kind) ∧
    (∀ reg' : Registry,
      lookupReg reg' (pair, tf, kind) = lookupReg reg (pair, tf, kind) →
      ((∃ s ∈ (check cfg enabled pair tf ind now reg').1, s.signal_type = kind) ↔
       (∃ s ∈ (check cfg enabled pair tf ind now reg).1, s.signal_type = kind))) := by
  have hnodup : (rulesTable.map Prod.fst).Nodup := by decide
  refine ⟨?_, ?_, ?_⟩
  · intro hlt s hs hkind
    have hcool : onCooldown cfg reg pair tf kind now = true := by
      unfold onCooldown
      rw [hlast]
      simp [hlt]
    by_cases hn : hasNan ind
    · simp [check, hn] at hs
    · simp only [check, hn, Bool.false_eq_true, if_false] at hs
      obtain ⟨fn', -, -, -, hfalse⟩ :=
        (runRules_mem_iff cfg enabled pair tf ind now rulesTable reg kind
          hnodup).mp ⟨s, hs, hkind⟩
      rw [hcool] at hfalse
      exact absurd hfalse (by simp)
  · intro heq hn he hf
    have hcool : onCooldown cfg reg pair tf kind now = false := by
      unfold onCooldown
      rw [hlast]
      simp [heq]
    have hch : check cfg enabled pair tf ind now reg =
        runRules cfg enabled pair tf ind now rulesTable reg := by
      simp [check, hn]
    rw [hch]
    exact (runRules_mem_iff cfg enabled pair tf ind now rulesTable reg kind
      hnodup).mpr ⟨fn, hrule, he, hf, hcool⟩
  · intro reg' hreg
    have hoc : onCooldown cfg reg' pair tf kind now =
        onCooldown cfg reg pair tf kind now :=
      onCooldown_lookup_eq cfg reg reg' pair tf kind now hreg
    by_cases hn : hasNan ind
    · simp [check, hn]
    · have hch : ∀ r : Registry, check cfg enabled pair tf ind now r =
          runRules cfg enabled pair tf ind now rulesTable r := by
        intro r
        simp [check, hn]
      rw [hch, hch,
        runRules_mem_iff cfg enabled pair tf ind now rulesTable reg' kind hnodup,
        runRules_mem_iff cfg enabled pair tf ind now rulesTable reg kind hnodup,
        hoc]

/-- Snapshot on which `tk_cross_up` fires (previous tenkan below kijun,
current above; every field defined). -/
def crossUpSnapshot : LatestValues :=
  { tenkan := some 10, kijun := some 9, senkou_a := some 5, senkou_b := some 4
    chikou := some 7, close := some 11, cloud_top := some 5, cloud_bottom := some 4
    prev_tenkan := some 8, prev_kijun := some 9, prev_senkou_a := some 5
    prev_senkou_b := some 4, prev_chikou := some 8, prev_close := some 10
    prev_cloud_top := some 5, prev_cloud_bottom := some 4 }

/-- Zero-cooldown detector configuration with the cloud filter off. -/
def coolCfg : DetectorConfig := { cooldown_minutes := 0, cloud_filter := false }

/-- Registry with a prior `tk_cross_up` firing at time 0. -/
def coolReg : Registry := [((("EURUSD"), ("H1"), ("tk_cross_up")), 0)]

/-- C6 witness: with exactly `cooldown_minutes` elapsed since the
registered firing, the enabled, fired `tk_cross_up` rule emits again. -/
theorem C6_witness :
    ((("tk_cross_up" : String), tkCrossUp) ∈ rulesTable) ∧
    lookupReg coolReg (("EURUSD"), ("H1"), ("tk_cross_up")) = some 0 ∧
    ((0 : ℚ) - 0 = ((coolCfg.cooldown_minutes : ℚ))) ∧
    hasNan crossUpSnapshot = false ∧
    (("tk_cross_up" : String) ∈ allSignals) ∧
    ((tkCrossUp coolCfg crossUpSnapshot).1 = true) ∧
    (∃ s ∈ (check coolCfg allSignals ("EURUSD") ("H1") crossUpSnapshot 0 coolReg).1,
      s.signal_type = ("tk_cross_up" : String)) :=
  ⟨by unfold rulesTable; exact List.mem_cons_self _ _,
   by decide, by simp [coolCfg], by decide, by decide, by decide,
   (C6_cooldown_semantics coolCfg allSignals ("EURUSD") ("H1") crossUpSnapshot
      0 0 ("tk_cross_up") tkCrossUp coolReg
      (by unfold rulesTable; exact List.mem_cons_self _ _)
      (by decide)).2.1 (by simp [coolCfg]) (by decide) (by decide) (by decide)⟩

/-- C10: suppressed firings do not touch the registry — after `check`, a
key maps to `now` exactly when an event with that key was emitted in this
call, and every other key (including the key of a rule whose condition
held but was on cooldown, and keys of other rules) keeps its previous
entry. -/
theorem C10_registry_frame (cfg : DetectorConfig) (enabled : List String)
    (pair tf : String) (ind : LatestValues) (now : ℚ) (reg : Registry)
    (key : CooldownKey) :
    (key ∉ (check cfg enabled pair tf ind now reg).1.map
        (fun s => (s.pair, s.timeframe, s.signal_type)) →
      lookupReg (check cfg enabled pair tf ind now reg).2 key =
        lookupReg reg key) ∧
    (key ∈ (check cfg enabled pair tf ind now reg).1.map
        (fun s => (s.pair, s.timeframe, s.signal_type)) →
      lookupReg (check cfg enabled pair tf ind now reg).2 key = some now) := by
  by_cases hn : hasNan ind
  · constructor
    · intro _
      simp [check, hn]
    · intro hmem
      simp [check, hn] at hmem
  · have hch : check cfg enabled pair tf ind now reg =
        runRules cfg enabled pair tf ind now rulesTable reg := by
      simp [check, hn]
    rw [hch]
    constructor
    · intro hmem
      rw [runRules_lookup]
      simp [hmem]
    · intro hmem
      rw [runRules_lookup]
      simp [hmem]

/-- C10 witness: a `check` call that emits nothing leaves an arbitrary
key's registry entry unchanged. -/
theorem C10_witness :
    ((("a" : String), ("b" : String), ("c" : String)) ∉
      (check {} allSignals ("EURUSD") ("H1") nanDict 0 []).1.map
        (fun s => (s.pair, s.timeframe, s.signal_type))) ∧
    lookupReg (check {} allSignals ("EURUSD") ("H1") nanDict 0 []).2
        (("a"), ("b"), ("c")) =
      lookupReg [] (("a"), ("b"), ("c")) :=
  ⟨by decide,
   (C10_registry_frame {} allSignals ("EURUSD") ("H1") nanDict 0 []
      (("a"), ("b"), ("c"))).1 (by decide)⟩

/-- C2 counterexample: seeding a window with bars at times 2 and 3 and
then appending a not-yet-seen *older* bar (time 1) leaves the window
`[2, 3, 1]` — `append` concatenates without re-sorting, so the claimed
sorted-ascending invariant fails. -/
theorem C2_counterexample :
    timesStrictMono
      (appendData 5 (seedData 5 [unitBar 2, unitBar 3]) [unitBar 1]) = false := by
  decide

/-- C2 (amended): seeded windows are trimmed to capacity, and they are
strictly sorted provided the seed batch has pairwise-distinct timestamps;
`append` keeps length ≤ capacity, and it preserves strict sortedness
provided the batch has pairwise-distinct timestamps and every appended
bar is either a duplicate of a buffered timestamp (hence dropped) or
strictly newer than everything in the window.  (Without those provisos
the invariant fails, as `C2_counterexample` shows.) -/
theorem C2_window_invariants_amended :
    (∀ (maxSize : ℕ) (df : List Bar), (seedData maxSize df).length ≤ maxSize) ∧
    (∀ (maxSize : ℕ) (df : List Bar), (df.map Bar.time).Nodup →
      timesStrictMono (seedData maxSize df) = true) ∧
    (∀ (maxSize : ℕ) (cur df : List Bar), cur.length ≤ maxSize →
      (appendData maxSize cur df).length ≤ maxSize) ∧
    (∀ (maxSize : ℕ) (cur df : List Bar),
      timesStrictMono cur = true → (df.map Bar.time).Nodup →
      (∀ b ∈ df, hasTime cur b.time = true ∨ ∀ c ∈ cur, c.time < b.time) →
      timesStrictMono (appendData maxSize cur df) = true) := by
  refine ⟨?_, ?_, ?_, ?_⟩
  · intro maxSize df
    exact tailN_length_le maxSize (prepare df)
  · intro maxSize df hnd
    rw [timesStrictMono_iff_pairwise]
    exact (prepare_pairwise_lt df hnd).sublist (tailN_sublist _ _)
  · intro maxSize cur df hlen
    rcases appendData_cases maxSize cur df with h | h <;> rw [h]
    · exact hlen
    · exact tailN_length_le _ _
  · intro maxSize cur df hcur hnd hfresh
    rw [timesStrictMono_iff_pairwise] at hcur ⊢
    have hnew : (newBarsOf cur df).Pairwise timeLT :=
      newBarsOf_pairwise_lt cur df hnd
    have hcross : ∀ a ∈ cur, ∀ b ∈ newBarsOf cur df, timeLT a b := by
      intro a ha b hb
      obtain ⟨hbdf, hbtime⟩ := newBarsOf_mem hb
      rcases hfresh b hbdf with h | h
      · rw [hbtime] at h
        exact absurd h (by simp)
      · exact h a ha
    have happ : (cur ++ newBarsOf cur df).Pairwise timeLT :=
      List.pairwise_append.mpr ⟨hcur, hnew, hcross⟩
    rcases appendData_cases maxSize cur df with h | h <;> rw [h]
    · exact hcur
    · exact happ.sublist (tailN_sublist _ _)

/-- C2 witness: the amended theorem applied to a concrete seed and a
concrete strictly-newer append. -/
theorem C2_witness :
    (([unitBar 2, unitBar 3].map Bar.time).Nodup ∧
     timesStrictMono (seedData 5 [unitBar 2, unitBar 3]) = true) ∧
    (timesStrictMono (seedData 5 [unitBar 2, unitBar 3]) = true ∧
     ([unitBar 4].map Bar.time).Nodup ∧
     (∀ b ∈ [unitBar 4],
        hasTime (seedData 5 [unitBar 2, unitBar 3]) b.time = true ∨
        ∀ c ∈ seedData 5 [unitBar 2, unitBar 3], c.time < b.time) ∧
     timesStrictMono
       (appendData 5 (seedData 5 [unitBar 2, unitBar 3]) [unitBar 4]) = true) :=
  ⟨⟨by decide, C2_window_invariants_amended.2.1 5 [unitBar 2, unitBar 3] (by decide)⟩,
   ⟨by decide, by decide, by decide,
    C2_window_invariants_amended.2.2.2 5 (seedData 5 [unitBar 2, unitBar 3])
      [unitBar 4] (by decide) (by decide) (by decide)⟩⟩

/-- C3 counterexample: with capacity 2, seeding `[2, 3]` and appending
the batch `[4, 5, 6]` gives `[5, 6]`, but appending the same batch a
second time re-admits the trimmed-away bar 4 and yields `[6, 4]` —
appending twice is not the same as appending once. -/
theorem C3_counterexample :
    appendData 2 (appendData 2 (seedData 2 [unitBar 2, unitBar 3])
        [unitBar 4, unitBar 5, unitBar 6]) [unitBar 4, unitBar 5, unitBar 6] ≠
      appendData 2 (seedData 2 [unitBar 2, unitBar 3])
        [unitBar 4, unitBar 5, unitBar 6] := by
  decide

/-- A 100-bar seed batch at times 0, 1, …, 99. -/
def trendBars100 : List Bar := (List.range 100).map (fun i => unitBar i)

/-- C3 (amended): appending a batch twice yields the same window as
appending it once *provided* the first append does not trim away any of
the newly admitted bars (in particular whenever the window plus the new
bars fit within capacity); the concrete scenario holds: a single bar
appended twice to a freshly seeded 100-bar window (capacity 300) leaves
the window at 101 bars, not 102. -/
theorem C3_append_idempotent_amended :
    (∀ (maxSize : ℕ) (cur df : List Bar),
      cur.length + (newBarsOf cur df).length ≤ maxSize →
      appendData maxSize (appendData maxSize cur df) df =
        appendData maxSize cur df) ∧
    (appendData 300 (appendData 300 (seedData 300 trendBars100) [unitBar 100])
        [unitBar 100]).length = 101 := by
  constructor
  · intro maxSize cur df hlen
    by_cases hempty : (newBarsOf cur df).isEmpty
    · have h1 : appendData maxSize cur df = cur := by
        unfold appendData
        simp [hempty]
      rw [h1]
      exact h1
    · have h1 : appendData maxSize cur df = cur ++ newBarsOf cur df := by
        unfold appendData
        rw [if_neg hempty]
        apply tailN_eq_of_length_le
        simpa using hlen
      have h2 : newBarsOf (cur ++ newBarsOf cur df) df = [] := by
        unfold newBarsOf
        apply List.filter_eq_nil_iff.mpr
        intro b hb
        have hbdf : b ∈ cur ++ newBarsOf cur df ∨ hasTime cur b.time = true := by
          by_cases hc : hasTime cur b.time
          · exact Or.inr hc
          · refine Or.inl (List.mem_append.mpr (Or.inr ?_))
            unfold newBarsOf
            exact List.mem_filter.mpr ⟨hb, by simp [hc]⟩
        have hht : hasTime (cur ++ newBarsOf cur df) b.time = true := by
          rcases hbdf with h | h
          · exact (hasTime_iff _ _).mpr ⟨b, h, rfl⟩
          · obtain ⟨c, hc, hct⟩ := (hasTime_iff _ _).mp h
            exact (hasTime_iff _ _).mpr ⟨c, List.mem_append.mpr (Or.inl hc), hct⟩
        have hht' : hasTime
            (cur ++ List.filter (fun b => !hasTime cur b.time) (prepare df))
            b.time = true := hht
        simp [hht']
      rw [h1]
      unfold appendData
      rw [h2]
      simp
  · decide

/-- C3 witness: the amended theorem applied to a small window and batch
that fit within capacity. -/
theorem C3_witness :
    (seedData 300 [unitBar 0, unitBar 1]).length +
      (newBarsOf (seedData 300 [unitBar 0, unitBar 1]) [unitBar 2]).length ≤ 300 ∧
    appendData 300 (appendData 300 (seedData 300 [unitBar 0, unitBar 1])
        [unitBar 2]) [unitBar 2] =
      appendData 300 (seedData 300 [unitBar 0, unitBar 1]) [unitBar 2] :=
  ⟨by decide,
   C3_append_idempotent_amended.1 300 (seedData 300 [unitBar 0, unitBar 1])
     [unitBar 2] (by decide)⟩

/-- C1: no look-ahead.  Over a time-ordered input, (i) after `k` replay
iterations — hence at the moment rule evaluation happens for replay bar
`k` — the buffer holds only bars from the first `warmup_candles + k`
input positions, never later ones; and (ii) every emitted event is
stamped no earlier than the bar at position `warmup_candles` of the
input. -/
theorem C1_no_lookahead (cfg : BacktestConfig) (symbol timeframe : String)
    (candles : List Bar) (enabledSignals : Option (List String))
    (events : List Signal) (b₀ : Bar)
    (hsort : timesSortedLE candles = true)
    (hrun : run cfg symbol timeframe candles enabledSignals = .ok events)
    (hb₀ : candles[cfg.warmup_candles]? = some b₀) :
    (∀ k ≤ (candles.drop cfg.warmup_candles).length,
      ∀ b ∈ (runPrefix cfg symbol timeframe (enabledSignals.getD allSignals)
          candles k).buf,
        b ∈ candles.take (cfg.warmup_candles + k)) ∧
    (∀ e ∈ events, b₀.time ≤ e.timestamp) := by
  obtain ⟨hw, hb₀'⟩ := List.getElem?_eq_some.mp hb₀
  constructor
  · intro k _ b hb
    exact runPrefix_buf_subset cfg symbol timeframe _ candles k b hb
  · intro e he
    simp only [run, runWithRegistry, signalDetectorInit] at hrun
    rw [if_neg (by omega : ¬ candles.length ≤ cfg.warmup_candles)] at hrun
    by_cases hbuf : cfg.buffer_size < DEFAULT_MIN
    · rw [if_pos hbuf] at hrun
      exact absurd hrun (by simp)
    · rw [if_neg hbuf] at hrun
      injection hrun with hev
      rw [← hev] at he
      rcases foldl_events_mem cfg symbol timeframe (enabledSignals.getD allSignals)
          (candles.drop cfg.warmup_candles) (initState cfg candles [])
          e he with h | h
      · simp [initState] at h
      · have hle := sorted_head_le candles cfg.warmup_candles hsort hw e.timestamp h
        have hb₀'' : candles.get ⟨cfg.warmup_candles, hw⟩ = b₀ := hb₀'
        rw [hb₀''] at hle
        exact hle

/-- C1 witness: the theorem applied to a concrete two-bar time-ordered
replay (which completes with no events). -/
theorem C1_witness :
    timesSortedLE [unitBar 0, unitBar 1] = true ∧
    run tinyCfg ("EURUSD") ("H1") [unitBar 0, unitBar 1] none = .ok [] ∧
    ([unitBar 0, unitBar 1] : List Bar)[tinyCfg.warmup_candles]? =
      some (unitBar 1) ∧
    ((∀ k ≤ (([unitBar 0, unitBar 1] : List Bar).drop
        tinyCfg.warmup_candles).length,
      ∀ b ∈ (runPrefix tinyCfg ("EURUSD") ("H1")
          ((none : Option (List String)).getD allSignals)
          [unitBar 0, unitBar 1] k).buf,
        b ∈ ([unitBar 0, unitBar 1] : List Bar).take
          (tinyCfg.warmup_candles + k)) ∧
     (∀ e ∈ ([] : List Signal), (unitBar 1).time ≤ e.timestamp)) :=
  ⟨by decide, by rfl, by decide,
   C1_no_lookahead tinyCfg ("EURUSD") ("H1") [unitBar 0, unitBar 1] none []
     (unitBar 1) (by decide) (by rfl) (by decide)⟩

end IchimokuBot
